import Mathlib

/-!
# Verification of the BOR-conversions currency core

A shallow embedding of `src/currency.rs` and the `strip_suffixes` helper of
`src/lib.rs`.  Rust `f64` values are modelled as exact rationals (`ℚ`); the
decimal literals appearing in the repository's tests are exactly representable
at the precision the claims use, and the two-decimal rendering of `{:.2}` is
modelled with round-half-to-even on the exact value.  `chrono` timestamps are
modelled as integer seconds; `DateTime::time()` is seconds-since-midnight,
i.e. the timestamp modulo 86400, and `chrono::Duration` values are integer
seconds.  The network fetch of `ExchangeRates::fetch` is modelled by an
explicit `fetchResult` argument: the outcome the rate source would produce if
it were invoked.  Rust's `str::to_lowercase` is modelled on the ASCII range,
which covers every alias the parser recognizes.
-/

deriving instance DecidableEq for Except

/-- Error type mirroring `CurrencyError` in `src/currency.rs`. -/
inductive CurrencyError
  | Parse (input : String) (message : String)
  | Request (message : String)
  | JsonParse (message : String)
deriving DecidableEq

/-- The `#[error(...)]` display strings of `CurrencyError` (`thiserror`). -/
def renderError : CurrencyError → String
  | .Parse input message =>
      "NumberParseError: couldn't parse number from '" ++ input ++ "': " ++ message
  | .Request message =>
      "RequestError: couldn't request data from currency API: " ++ message
  | .JsonParse message =>
      "JSONParseError: couldn't parse JSON returned by currency API: " ++ message

/-- `ExchangeRates` of `src/currency.rs`: a fetch timestamp (`when`, modelled
as integer seconds) and one rate per supported currency (modelled as `ℚ`). -/
structure ExchangeRates where
  whenFetched : Int
  eur : ℚ
  usd : ℚ
  cad : ℚ
  rub : ℚ
  jpy : ℚ
  aud : ℚ
  amd : ℚ
  gbp : ℚ
  pkr : ℚ
deriving DecidableEq

/-- `CurrencyConverter` of `src/currency.rs`. `max_age` is a `chrono::Duration`
modelled as integer seconds. -/
structure CurrencyConverter where
  exchange_rates : ExchangeRates
  api_key : String
  max_age : Int
deriving DecidableEq

/-- `CurrencyType` of `src/currency.rs`. -/
inductive CurrencyType
  | Eur | Usd | Cad | Rub | Jpy | Aud | Amd | Gbp | Pkr
deriving DecidableEq

/-- The `fmt::Display` labels of `CurrencyType`. -/
def displayUnit : CurrencyType → String
  | .Usd => "Dollar(s) [USD]"
  | .Eur => "Euro(s) [EUR]"
  | .Cad => "Canadian Dollar(s) [CAD]"
  | .Rub => "Ruble(s) [RUB]"
  | .Jpy => "Yen [JPY]"
  | .Aud => "Austriallian Dollar(s) [AUD]"
  | .Amd => "Dram [AMD]"
  | .Gbp => "Brittish Pound(s) [GBP]"
  | .Pkr => "Pakistani rupee(s) [PKR]"

/-- Rate lookup: the `match currency` tables used both in `Currency::from_str`
and in `impl fmt::Display for Currency`. -/
def rateOf (r : ExchangeRates) : CurrencyType → ℚ
  | .Usd => r.usd
  | .Eur => r.eur
  | .Cad => r.cad
  | .Rub => r.rub
  | .Jpy => r.jpy
  | .Aud => r.aud
  | .Amd => r.amd
  | .Gbp => r.gbp
  | .Pkr => r.pkr

/-- ASCII model of Rust `str::to_lowercase` (`Char.toLower` lowers `A`-`Z`
and fixes everything else, which matches Rust on all recognized aliases). -/
def lowerStr (s : String) : String := ⟨s.data.map Char.toLower⟩

/-- Rust `str::ends_with` for a string pattern (character-level suffix). -/
def endsWithS (s suf : String) : Bool := suf.data.isSuffixOf s.data

/-- Rust `str::starts_with` for a `char` pattern. -/
def startsWithC (s : String) (c : Char) : Bool :=
  match s.data with
  | [] => false
  | c2 :: _ => c2 = c

/-- Rust `str::strip_suffix`: `some` of the shortened string when the suffix
is present, `none` otherwise. -/
def dropSuf (s suf : String) : Option String :=
  if endsWithS s suf then some ⟨s.data.take (s.data.length - suf.data.length)⟩
  else none

/-- Rust `str::strip_prefix` for a `char` pattern. -/
def dropPre (s : String) (c : Char) : Option String :=
  match s.data with
  | c2 :: rest => if c2 = c then some ⟨rest⟩ else none
  | [] => none

/-- `strip_suffixes` of `src/lib.rs`: try each suffix in order, replacing the
string by the stripped form whenever `strip_suffix` succeeds. -/
def strip_suffixes (input : String) (suffixes : List String) : String :=
  suffixes.foldl (fun acc suf => (dropSuf acc suf).getD acc) input

/-- The `match s { Some(s) => s, None => &s }` idiom applied to a leading
symbol in `Currency::from_str`. -/
def stripSymbol (s : String) (c : Char) : String := (dropPre s c).getD s

/-- Rust `str::trim` (drop whitespace from both ends). -/
def trimS (s : String) : String :=
  ⟨((s.data.dropWhile Char.isWhitespace).reverse.dropWhile Char.isWhitespace).reverse⟩

/-- Accumulate a digit list into a natural number (base 10). -/
def digitsToNat (ds : List Char) : Nat :=
  ds.foldl (fun a c => a * 10 + (c.toNat - 48)) 0

/-- Model of Rust `str::parse::<f64>` restricted to plain decimal literals
(optional sign, digits, optional fractional part), which covers every numeric
form these claims exercise; the parsed value is the exact rational. Strings
outside this grammar (in particular any string still containing letters or
interior spaces) are rejected, as Rust rejects them. -/
def parseDecimalCore (s : List Char) : Option ℚ :=
  let intPart := s.takeWhile Char.isDigit
  let rest := s.dropWhile Char.isDigit
  match rest with
  | [] => if intPart.isEmpty then none else some (digitsToNat intPart : ℚ)
  | '.' :: frac =>
      if frac.all Char.isDigit ∧ ¬(intPart.isEmpty ∧ frac.isEmpty) then
        some ((digitsToNat intPart : ℚ) + (digitsToNat frac : ℚ) / (10 ^ frac.length : ℚ))
      else none
  | _ => none

/-- Signed decimal parsing (Rust `str::parse::<f64>` model, see
`parseDecimalCore`). -/
def parseDecimal (s : List Char) : Option ℚ :=
  match s with
  | '-' :: rest => (parseDecimalCore rest).map Neg.neg
  | '+' :: rest => parseDecimalCore rest
  | _ => parseDecimalCore s

/-- The display string of Rust's `ParseFloatError` for the trimmed remainder. -/
def numErrMsg (trimmed : String) : String :=
  if trimmed.data.isEmpty then "cannot parse float from empty string"
  else "invalid float literal"

/-- The unit-recognition `match` chain of `Currency::from_str` (the input is
already lowercased): each guard tests suffix aliases and leading symbols; the
matching branch strips the branch's suffix list via `strip_suffixes` and, where
the branch has one, a leading symbol; the catch-all branch is the
`"Invalid unit provided."` parse error carrying the (lowercased) input. -/
def matchUnit (s : String) : Except CurrencyError (String × CurrencyType) :=
  if endsWithS s "usd" || endsWithS s "dollar" || startsWithC s '$' then
    .ok (stripSymbol (strip_suffixes s ["usd", "dollar"]) '$', .Usd)
  else if endsWithS s "quid" || endsWithS s "pound" || endsWithS s "pounds" ||
      endsWithS s "sterling" || endsWithS s "gbp" || startsWithC s '£' then
    .ok (stripSymbol (strip_suffixes s ["quid", "pound", "pounds", "sterling", "gbp"]) '£', .Gbp)
  else if endsWithS s "eur" || endsWithS s "euro" || startsWithC s '€' then
    .ok (stripSymbol (strip_suffixes s ["eur", "eruo"]) '€', .Eur)
  else if endsWithS s "rub" || endsWithS s "ruble" then
    .ok (strip_suffixes s ["ruble", "rub"], .Rub)
  else if endsWithS s "amd" || endsWithS s "dram" then
    .ok (strip_suffixes s ["amd", "dram"], .Amd)
  else if endsWithS s "cad" then
    .ok (strip_suffixes s ["cad"], .Cad)
  else if endsWithS s "aud" then
    .ok (strip_suffixes s ["aud"], .Aud)
  else if endsWithS s "yen" || endsWithS s "jpy" || startsWithC s '¥' then
    .ok (stripSymbol (strip_suffixes s ["yen", "jpy"]) '¥', .Jpy)
  else if endsWithS s "pkr" || endsWithS s "pakistani rupee" then
    .ok (strip_suffixes s ["pkr", "pakistani rupee"], .Pkr)
  else
    .error (.Parse s "Invalid unit provided.")

/-- The parsing stage of `Currency::from_str` (everything before the exchange
rates are consulted): lowercase, recognize and strip the unit, then parse the
trimmed remainder as a number; a numeric failure carries the stripped string. -/
def parseAmount (input : String) : Except CurrencyError (ℚ × CurrencyType) :=
  match matchUnit (lowerStr input) with
  | .error e => .error e
  | .ok (s, currency) =>
    match parseDecimal (trimS s).data with
    | some v => .ok (v, currency)
    | none => .error (.Parse s (numErrMsg (trimS s)))

/-- `DateTime::time()` modelled on integer-second timestamps:
seconds since midnight. -/
def timeOfDay (t : Int) : Int := t % 86400

/-- The staleness condition of `Currency::refresh_exchange_rates`:
`diff > max_age` where `diff = when.time() - now.time()` (note the
source computes `when - now`, not `now - when`, on times of day). -/
def staleCheck (converter : CurrencyConverter) (now : Int) : Bool :=
  timeOfDay converter.exchange_rates.whenFetched - timeOfDay now > converter.max_age

/-- `Currency::refresh_exchange_rates`: when the staleness condition holds the
rate source is invoked (its outcome is the `fetchResult` argument) and a fetch
error propagates via `?`; otherwise the converter is returned unchanged. -/
def refresh_exchange_rates (converter : CurrencyConverter) (now : Int)
    (fetchResult : Except CurrencyError ExchangeRates) :
    Except CurrencyError CurrencyConverter :=
  if staleCheck converter now then
    match fetchResult with
    | .ok r => .ok { converter with exchange_rates := r }
    | .error e => .error e
  else
    .ok converter

/-- `Currency` of `src/currency.rs`: a converter, a display unit and the
value normalized to USD. -/
structure Currency where
  converter : CurrencyConverter
  currency : CurrencyType
  value : ℚ
deriving DecidableEq

namespace Currency

/-- `Currency::from_str`: parse, refresh the exchange rates (propagating any
fetch error), then store the magnitude divided by the source unit's rate
from the refreshed converter. -/
def from_str (s : String) (converter : CurrencyConverter) (now : Int)
    (fetchResult : Except CurrencyError ExchangeRates) :
    Except CurrencyError Currency :=
  match parseAmount s with
  | .error e => .error e
  | .ok (value, currency) =>
    match refresh_exchange_rates converter now fetchResult with
    | .error e => .error e
    | .ok converter =>
      .ok { converter
            currency
            value := value / rateOf converter.exchange_rates currency }

/-- `Currency::into_currency`: re-tag the display unit. -/
def into_currency (c : Currency) (currency : CurrencyType) : Currency :=
  { c with currency }

/-- `Currency::get_converter`. -/
def get_converter (c : Currency) : CurrencyConverter := c.converter

end Currency

/-- Round to the nearest integer, ties to even (the rounding Rust's `{:.2}`
formatting applies to the exact value). -/
def rndHalfEven (x : ℚ) : Int :=
  let f := ⌊x⌋
  let r := x - (f : ℚ)
  if r < 1 / 2 then f
  else if r > 1 / 2 then f + 1
  else if f % 2 = 0 then f else f + 1

/-- Two-digit zero padding for the fractional part. -/
def pad2 (k : Nat) : String := if k < 10 then "0" ++ toString k else toString k

/-- The `{value:.2}` rendering of a numeric value. -/
def fmt2 (q : ℚ) : String :=
  let n := rndHalfEven (q * 100)
  let m := n.natAbs
  (if n < 0 then "-" else "") ++ toString (m / 100) ++ "." ++ pad2 (m % 100)

/-- `impl fmt::Display for Currency`: multiply the stored USD value by the
display unit's rate and render with two decimals and the unit label. -/
def Currency.display (c : Currency) : String :=
  fmt2 (rateOf c.converter.exchange_rates c.currency * c.value) ++ " " ++
    displayUnit c.currency

/-- The target-resolution `match` inside `run` (on the trimmed, lowercased
target token). -/
def resolveTarget (target : String) : Option CurrencyType :=
  match lowerStr (trimS target) with
  | "$" | "usd" | "dollar" => some .Usd
  | "€" | "eur" | "euro" => some .Eur
  | "cad" => some .Cad
  | "rub" | "ruble" => some .Rub
  | "¥" | "yen" | "jpy" => some .Jpy
  | "aud" => some .Aud
  | "amd" | "dram" => some .Amd
  | "pound" | "sterling" | "quid" => some .Gbp
  | "pakistani rupee" | "pkr" => some .Pkr
  | _ => none

/-- `run` of `src/currency.rs`: parse the input (returning the rendered error
and the original converter on failure), render the original value, resolve the
target token (returning the distinct invalid-target string and the original
converter on failure), re-tag, and return the `"a -> b"` rendering together
with the converter held by the converted value. -/
def run (converter : CurrencyConverter) (input target : String) (now : Int)
    (fetchResult : Except CurrencyError ExchangeRates) :
    String × CurrencyConverter :=
  match Currency.from_str input converter now fetchResult with
  | .error e => (renderError e, converter)
  | .ok value =>
    let initial_value := value.display
    match resolveTarget target with
    | none => ("Error: Invalid target currency", converter)
    | some t =>
      let value := value.into_currency t
      (initial_value ++ " -> " ++ value.display, value.get_converter)

/-- The exchange-rate snapshot used throughout the repository's test suite. -/
def testRates : ExchangeRates :=
  { whenFetched := 0
    eur := 0.932001
    usd := 1.0
    cad := 1.344352
    rub := 71.510096
    jpy := 132.626755
    aud := 1.451866
    amd := 396.62057
    gbp := 0.831541
    pkr := 281.850466 }

/-- The converter used throughout the repository's test suite
(`max_age = Duration::hours(24)` = 86400 seconds). -/
def testConverter : CurrencyConverter :=
  { exchange_rates := testRates
    api_key := "NONE"
    max_age := 86400 }

/-- The alias/symbol sets recognized by the guards of the unit-recognition
`match` in `Currency::from_str` (word aliases and currency codes tested as
suffixes, currency symbols tested as a leading character). -/
def parserAliases : CurrencyType → List String
  | .Usd => ["usd", "dollar", "$"]
  | .Gbp => ["quid", "pound", "pounds", "sterling", "gbp", "£"]
  | .Eur => ["eur", "euro", "€"]
  | .Rub => ["rub", "ruble"]
  | .Amd => ["amd", "dram"]
  | .Cad => ["cad"]
  | .Aud => ["aud"]
  | .Jpy => ["yen", "jpy", "¥"]
  | .Pkr => ["pkr", "pakistani rupee"]

/-- The disjunction of all nine unit-recognition guards of
`Currency::from_str` (on the already-lowercased string): `true` exactly when
some branch of the `match` chain other than the catch-all applies. -/
def matchesSomeUnit (s : String) : Bool :=
  (endsWithS s "usd" || endsWithS s "dollar" || startsWithC s '$') ||
  (endsWithS s "quid" || endsWithS s "pound" || endsWithS s "pounds" ||
    endsWithS s "sterling" || endsWithS s "gbp" || startsWithC s '£') ||
  (endsWithS s "eur" || endsWithS s "euro" || startsWithC s '€') ||
  (endsWithS s "rub" || endsWithS s "ruble") ||
  (endsWithS s "amd" || endsWithS s "dram") ||
  (endsWithS s "cad") ||
  (endsWithS s "aud") ||
  (endsWithS s "yen" || endsWithS s "jpy" || startsWithC s '¥') ||
  (endsWithS s "pkr" || endsWithS s "pakistani rupee")

/-- A converter whose snapshot was fetched at second 0 of a day with a
one-hour `max_age`: the fixture for the staleness claims. -/
def staleFixture : CurrencyConverter :=
  { exchange_rates := { testRates with whenFetched := 0 }
    api_key := "NONE"
    max_age := 3600 }

/-- A converter fetched at 23:00 (second 82800) with a one-hour `max_age`,
examined at 01:00 of the next day (second 90000): one of the rare inputs on
which the source's inverted time-of-day comparison does fire a refresh. -/
def wrapFixture : CurrencyConverter :=
  { exchange_rates := { testRates with whenFetched := 82800 }
    api_key := "NONE"
    max_age := 3600 }

/-- C1: the staleness test is inverted in the source. With the snapshot
fetched at second 0 of a day, `max_age` one hour, and `now` two hours later,
the elapsed time `now - fetched_at` exceeds `max_age`, yet the condition
`when.time() - now.time() > max_age` computed by `refresh_exchange_rates` is
false, so the refresh step returns the converter unchanged without consulting
the rate source, whatever the rate source would have produced. -/
theorem c1_staleness_inverted :
    (7200 : Int) - staleFixture.exchange_rates.whenFetched > staleFixture.max_age ∧
    staleCheck staleFixture 7200 = false ∧
    ∀ fetchResult : Except CurrencyError ExchangeRates,
      refresh_exchange_rates staleFixture 7200 fetchResult = .ok staleFixture := by
  refine ⟨by decide, by decide, fun fetchResult => ?_⟩
  simp [refresh_exchange_rates, show staleCheck staleFixture 7200 = false by decide]

/-- C5: the claim fails on the word alias `"euro"`. The guard of the EUR
branch recognizes the suffix `"euro"`, but the branch strips only `"eur"` and
the misspelling `"eruo"`, neither of which is a suffix of `"45.9 euro"`, so
the numeric parse of the unstripped remainder fails; the spec's intended
result `(45.9, EUR)` is what the neighbouring alias `"eur"` and all four USD
forms produce. -/
theorem c5_euro_alias_broken :
    parseAmount "45.9 euro" = .error (.Parse "45.9 euro" "invalid float literal") ∧
    parseAmount "45.9 eur" = .ok (45.9, .Eur) ∧
    parseAmount "$45.9" = .ok (45.9, .Usd) ∧
    parseAmount "45.9 usd" = .ok (45.9, .Usd) ∧
    parseAmount "45.9 dollar" = .ok (45.9, .Usd) ∧
    parseAmount "45.9 DOLLAR" = .ok (45.9, .Usd) := by
  refine ⟨?_, ?_, ?_, ?_, ?_, ?_⟩ <;> with_unfolding_all rfl

/-- C8: rendered conversion values are `amount_usd * rates[target]` rounded to
two decimals: with the test snapshot (`usd = 1.0`, `cad = 1.344352`,
`amd = 396.62057`), `"40 USD"` to CAD renders `53.77` and `"45.9 USD"` to AMD
renders `18204.88`. -/
theorem c8_rendered_values :
    (run testConverter "40 USD" "cad" 0 (.ok testRates)).1 =
      "40.00 Dollar(s) [USD] -> 53.77 Canadian Dollar(s) [CAD]" ∧
    (run testConverter "45.9 USD" "amd" 0 (.ok testRates)).1 =
      "45.90 Dollar(s) [USD] -> 18204.88 Dram [AMD]" := by
  exact ⟨by with_unfolding_all rfl, by with_unfolding_all rfl⟩

/-- C3: normalization divides by the source-unit rate. For every input whose
parsing stage succeeds with magnitude `m` and unit `u` and for which
`from_str` succeeds, the stored value of the resulting `Currency` is
`m / rates[u]` under the (possibly refreshed) snapshot the result carries,
and its unit tag is `u`. -/
theorem c3_normalize_divides (s : String) (conv : CurrencyConverter) (now : Int)
    (fetchResult : Except CurrencyError ExchangeRates) (m : ℚ) (u : CurrencyType)
    (c : Currency)
    (hp : parseAmount s = .ok (m, u))
    (hc : Currency.from_str s conv now fetchResult = .ok c) :
    c.value = m / rateOf c.converter.exchange_rates u ∧ c.currency = u := by
  cases hr : refresh_exchange_rates conv now fetchResult with
  | error e => simp [Currency.from_str, hp, hr] at hc
  | ok conv2 =>
    simp [Currency.from_str, hp, hr] at hc
    subst hc
    exact ⟨rfl, rfl⟩

/-- Witness for C3 at the concrete input `"40 usd"` with the test fixture
(no refresh fires, so the snapshot is unchanged and the stored value is
`40 / 1 = 40`). -/
theorem c3_normalize_divides_witness :
    parseAmount "40 usd" = .ok (40, .Usd) ∧
    Currency.from_str "40 usd" testConverter 0 (.ok testRates) =
      .ok ⟨testConverter, .Usd, 40⟩ ∧
    ((⟨testConverter, .Usd, 40⟩ : Currency).value =
        40 / rateOf (⟨testConverter, .Usd, 40⟩ : Currency).converter.exchange_rates .Usd ∧
      (⟨testConverter, .Usd, 40⟩ : Currency).currency = .Usd) := by
  have hp : parseAmount "40 usd" = .ok (40, .Usd) := by with_unfolding_all rfl
  have hc : Currency.from_str "40 usd" testConverter 0 (.ok testRates) =
      .ok ⟨testConverter, .Usd, 40⟩ := by with_unfolding_all rfl
  exact ⟨hp, hc, c3_normalize_divides "40 usd" testConverter 0 (.ok testRates) 40 .Usd _ hp hc⟩

/-- C9: `run` never fails the caller. For every converter, input, target,
clock value and rate-source outcome, the returned string is either the
rendered form of a `CurrencyError`, the distinct invalid-target string, or
the `"original -> converted"` success rendering. -/
theorem c9_run_total_output (conv : CurrencyConverter) (input target : String) (now : Int)
    (fetchResult : Except CurrencyError ExchangeRates) :
    (∃ e, run conv input target now fetchResult = (renderError e, conv)) ∨
    run conv input target now fetchResult = ("Error: Invalid target currency", conv) ∨
    (∃ c t, Currency.from_str input conv now fetchResult = .ok c ∧
      resolveTarget target = some t ∧
      run conv input target now fetchResult =
        (c.display ++ " -> " ++ (c.into_currency t).display, (c.into_currency t).converter)) := by
  cases hf : Currency.from_str input conv now fetchResult with
  | error e => exact Or.inl ⟨e, by simp [run, hf]⟩
  | ok c =>
    cases ht : resolveTarget target with
    | none => exact Or.inr (Or.inl (by simp [run, hf, ht]))
    | some t =>
      exact Or.inr (Or.inr ⟨c, t, rfl, rfl, by simp [run, hf, ht, Currency.get_converter]⟩)

/-- C10: on every error path (input fails to parse or fetch fails inside
`from_str`, or the target token is unrecognized) `run` returns the converter
it was given, with snapshot, api key and `max_age` untouched. -/
theorem c10_error_frame (conv : CurrencyConverter) (input target : String) (now : Int)
    (fetchResult : Except CurrencyError ExchangeRates)
    (h : (∃ e, Currency.from_str input conv now fetchResult = .error e) ∨
      resolveTarget target = none) :
    (run conv input target now fetchResult).2 = conv := by
  cases hf : Currency.from_str input conv now fetchResult with
  | error e => simp [run, hf]
  | ok c =>
    rcases h with ⟨e, he⟩ | ht
    · rw [hf] at he
      exact absurd he (by simp)
    · simp [run, hf, ht]

/-- Witness for C10 at the unparsable input `"45.9 zzz"` with the test
fixture. -/
theorem c10_error_frame_witness :
    Currency.from_str "45.9 zzz" testConverter 0 (.ok testRates) =
      .error (.Parse "45.9 zzz" "Invalid unit provided.") ∧
    (run testConverter "45.9 zzz" "usd" 0 (.ok testRates)).2 = testConverter := by
  have hf : Currency.from_str "45.9 zzz" testConverter 0 (.ok testRates) =
      .error (.Parse "45.9 zzz" "Invalid unit provided.") := by with_unfolding_all rfl
  exact ⟨hf, c10_error_frame testConverter "45.9 zzz" "usd" 0 (.ok testRates) (Or.inl ⟨_, hf⟩)⟩

/-- C2 counterexample: with the `wrapFixture` converter the staleness
condition does fire at second 90000, and when the rate source fails the
conversion does NOT proceed on the stale snapshot: `from_str` propagates the
fetch failure (the `?` on `ExchangeRates::fetch`) as the conversion's error,
and `run` renders that failure instead of a conversion result. -/
theorem c2_refresh_failure_fatal :
    staleCheck wrapFixture 90000 = true ∧
    Currency.from_str "1 usd" wrapFixture 90000 (.error (.Request "boom")) =
      .error (.Request "boom") ∧
    (run wrapFixture "1 usd" "usd" 90000 (.error (.Request "boom"))).1 =
      "RequestError: couldn't request data from currency API: boom" := by
  refine ⟨by decide, ?_, ?_⟩ <;> with_unfolding_all rfl

/-- C2 (amended): a rate-source failure during a refresh triggered
mid-conversion is fatal to that conversion — when the staleness condition
holds and the input parses, `from_str` surfaces the fetch error and `run`
renders it as the result string — but the converter `run` returns is always
the one passed in, so the cache keeps the previous snapshot. -/
theorem c2_refresh_failure_kept_snapshot (conv : CurrencyConverter)
    (input target : String) (now : Int) (e : CurrencyError) :
    (run conv input target now (.error e)).2 = conv ∧
    (staleCheck conv now = true →
      ∀ m u, parseAmount input = .ok (m, u) →
        Currency.from_str input conv now (.error e) = .error e ∧
        (run conv input target now (.error e)).1 = renderError e) := by
  constructor
  · cases hp : parseAmount input with
    | error err => simp [run, Currency.from_str, hp]
    | ok p =>
      rcases p with ⟨v, u⟩
      by_cases hs : staleCheck conv now
      · simp [run, Currency.from_str, hp, refresh_exchange_rates, hs]
      · simp only [run, Currency.from_str, hp, refresh_exchange_rates, hs]
        simp only [Bool.false_eq_true, if_false]
        cases resolveTarget target <;>
          simp [Currency.into_currency, Currency.get_converter]
  · intro hs m u hp
    have h1 : Currency.from_str input conv now (.error e) = .error e := by
      simp [Currency.from_str, hp, refresh_exchange_rates, hs]
    exact ⟨h1, by simp [run, h1]⟩

/-- Witness for C2's amended theorem at the `wrapFixture` converter, where
the refresh fires and the rate source fails. -/
theorem c2_refresh_failure_kept_snapshot_witness :
    staleCheck wrapFixture 90000 = true ∧
    parseAmount "1 usd" = .ok (1, .Usd) ∧
    ((run wrapFixture "1 usd" "usd" 90000 (.error (.Request "boom"))).2 = wrapFixture ∧
      Currency.from_str "1 usd" wrapFixture 90000 (.error (.Request "boom")) =
        .error (.Request "boom") ∧
      (run wrapFixture "1 usd" "usd" 90000 (.error (.Request "boom"))).1 =
        renderError (.Request "boom")) := by
  have hs : staleCheck wrapFixture 90000 = true := by decide
  have hp : parseAmount "1 usd" = .ok (1, .Usd) := by with_unfolding_all rfl
  refine ⟨hs, hp, ?_, ?_⟩
  · exact (c2_refresh_failure_kept_snapshot wrapFixture "1 usd" "usd" 90000 (.Request "boom")).1
  · exact (c2_refresh_failure_kept_snapshot wrapFixture "1 usd" "usd" 90000
      (.Request "boom")).2 hs 1 .Usd hp

/-- C6: identity conversion round-trips exactly up to the fixed two-decimal
rendering. For every converter whose snapshot has USD rate `1.0` and for
which the staleness condition does not fire (so the given snapshot is the
one used), running `"100 USD"` with target `"USD"` renders
`"100.00 Dollar(s) [USD]"` on both sides of the arrow. -/
theorem c6_identity_roundtrip (conv : CurrencyConverter) (now : Int)
    (fetchResult : Except CurrencyError ExchangeRates)
    (husd : conv.exchange_rates.usd = 1)
    (hfresh : staleCheck conv now = false) :
    (run conv "100 USD" "USD" now fetchResult).1 =
      "100.00 Dollar(s) [USD] -> 100.00 Dollar(s) [USD]" := by
  have hp : parseAmount "100 USD" = .ok (100, .Usd) := by with_unfolding_all rfl
  have hf : Currency.from_str "100 USD" conv now fetchResult =
      .ok ⟨conv, .Usd, 100 / conv.exchange_rates.usd⟩ := by
    simp [Currency.from_str, hp, refresh_exchange_rates, hfresh, rateOf]
  have ht : resolveTarget "USD" = some .Usd := by with_unfolding_all rfl
  have hv : conv.exchange_rates.usd * (100 / conv.exchange_rates.usd) = (100 : ℚ) := by
    rw [husd]; norm_num
  simp only [run, hf, ht, Currency.display, Currency.into_currency, Currency.get_converter,
    rateOf, hv]
  with_unfolding_all rfl

/-- Witness for C6 at the test fixture. -/
theorem c6_identity_roundtrip_witness :
    testConverter.exchange_rates.usd = 1 ∧
    staleCheck testConverter 0 = false ∧
    (run testConverter "100 USD" "USD" 0 (.ok testRates)).1 =
      "100.00 Dollar(s) [USD] -> 100.00 Dollar(s) [USD]" := by
  have h1 : testConverter.exchange_rates.usd = 1 := by with_unfolding_all rfl
  have h2 : staleCheck testConverter 0 = false := by decide
  exact ⟨h1, h2, c6_identity_roundtrip testConverter 0 (.ok testRates) h1 h2⟩

/-- C7: an input recognized by no unit guard fails with the
`"Invalid unit provided."` parse error carrying the (lowercased) input, and
with no other outcome: for every string on which all nine unit guards are
false, `from_str` returns exactly that error, independent of the converter,
the clock and the rate source. -/
theorem c7_invalid_unit (s : String) (conv : CurrencyConverter) (now : Int)
    (fetchResult : Except CurrencyError ExchangeRates)
    (h : matchesSomeUnit (lowerStr s) = false) :
    Currency.from_str s conv now fetchResult =
      .error (.Parse (lowerStr s) "Invalid unit provided.") := by
  have hm : matchUnit (lowerStr s) = .error (.Parse (lowerStr s) "Invalid unit provided.") := by
    unfold matchesSomeUnit at h
    simp only [Bool.or_eq_false_iff] at h
    unfold matchUnit
    simp_all
  simp [Currency.from_str, parseAmount, hm]

/-- Witness for C7 at the input `"45.9 zzz"`. -/
theorem c7_invalid_unit_witness :
    matchesSomeUnit (lowerStr "45.9 zzz") = false ∧
    Currency.from_str "45.9 zzz" testConverter 0 (.ok testRates) =
      .error (.Parse (lowerStr "45.9 zzz") "Invalid unit provided.") := by
  have h : matchesSomeUnit (lowerStr "45.9 zzz") = false := by decide
  exact ⟨h, c7_invalid_unit "45.9 zzz" testConverter 0 (.ok testRates) h⟩

/-- C4 counterexample: the target table of `run` is NOT the parser's alias
table. The input parser accepts the currency code `"gbp"` (and `"pounds"`,
`"£"`) for GBP, but as a target token `"gbp"` is unresolved, so converting a
valid input to `"gbp"` fails with the invalid-target error. -/
theorem c4_target_alias_gap :
    parseAmount "1 gbp" = .ok (1, .Gbp) ∧
    resolveTarget "gbp" = none ∧
    run testConverter "1 usd" "gbp" 0 (.ok testRates) =
      ("Error: Invalid target currency", testConverter) := by
  refine ⟨?_, ?_, ?_⟩ <;> with_unfolding_all rfl

/-- C4 (amended): target resolution in `run` is case-insensitive (any string
whose trimmed lowercase form is a recognized alias resolves) and accepts the
parser's alias table for every unit except GBP, where only `"quid"`,
`"pound"` and `"sterling"` are accepted while the parser's `"pounds"`,
`"gbp"` and `"£"` are not; an unresolved target on a successfully parsed
input yields the distinct `"Error: Invalid target currency"` string, which
differs from every rendered parse error. -/
theorem c4_target_resolution (conv : CurrencyConverter) :
    (∀ u : CurrencyType, u ≠ .Gbp → ∀ a ∈ parserAliases u, ∀ s : String,
      lowerStr (trimS s) = a → resolveTarget s = some u) ∧
    (∀ a ∈ parserAliases CurrencyType.Gbp,
      resolveTarget a =
        if a = "quid" ∨ a = "pound" ∨ a = "sterling" then some .Gbp else none) ∧
    (∀ (input target : String) (now : Int)
        (fetchResult : Except CurrencyError ExchangeRates) (c : Currency),
      Currency.from_str input conv now fetchResult = .ok c →
      resolveTarget target = none →
      run conv input target now fetchResult = ("Error: Invalid target currency", conv)) ∧
    (∀ i msg, renderError (.Parse i msg) ≠ "Error: Invalid target currency") := by
  refine ⟨?_, ?_, ?_, ?_⟩
  · intro u hu a ha s hs
    cases u <;> simp only [parserAliases] at ha <;> first
      | exact absurd rfl hu
      | (fin_cases ha <;> (simp only [resolveTarget, hs]))
  · intro a ha
    simp only [parserAliases] at ha
    fin_cases ha <;> decide
  · intro input target now fetchResult c hf ht
    simp [run, hf, ht]
  · intro i msg h
    have hn : (renderError (.Parse i msg)).data.head? = some 'N' := by
      show ((("NumberParseError: couldn't parse number from '" ++ i) ++ "': ") ++ msg).data.head? =
        some 'N'
      cases i with
      | mk di => cases msg with
        | mk dm => rfl
    rw [h] at hn
    exact absurd hn (by decide)

/-- Witness for C4's amended theorem: `" USD "` resolves case-insensitively
to USD, `"quid"` resolves to GBP, an unresolved target on a parsed input
yields the invalid-target pair, and that string differs from a rendered
parse error. -/
theorem c4_target_resolution_witness :
    (CurrencyType.Usd ≠ CurrencyType.Gbp ∧ "usd" ∈ parserAliases CurrencyType.Usd ∧
      lowerStr (trimS " USD ") = "usd" ∧ resolveTarget " USD " = some CurrencyType.Usd) ∧
    ("quid" ∈ parserAliases CurrencyType.Gbp ∧
      resolveTarget "quid" =
        if "quid" = "quid" ∨ "quid" = "pound" ∨ "quid" = "sterling" then
          some CurrencyType.Gbp else none) ∧
    (Currency.from_str "1 usd" testConverter 0 (.ok testRates) =
        .ok ⟨testConverter, .Usd, 1⟩ ∧
      resolveTarget "zzz" = none ∧
      run testConverter "1 usd" "zzz" 0 (.ok testRates) =
        ("Error: Invalid target currency", testConverter)) ∧
    renderError (.Parse "1 zzz" "Invalid unit provided.") ≠
      "Error: Invalid target currency" := by
  have h1 : CurrencyType.Usd ≠ CurrencyType.Gbp := by decide
  have h2 : "usd" ∈ parserAliases CurrencyType.Usd := by decide
  have h3 : lowerStr (trimS " USD ") = "usd" := by decide
  have h4 : "quid" ∈ parserAliases CurrencyType.Gbp := by decide
  have h5 : Currency.from_str "1 usd" testConverter 0 (.ok testRates) =
      .ok ⟨testConverter, .Usd, 1⟩ := by with_unfolding_all rfl
  have h6 : resolveTarget "zzz" = none := by decide
  refine ⟨⟨h1, h2, h3, (c4_target_resolution testConverter).1 .Usd h1 "usd" h2 " USD " h3⟩,
    ⟨h4, (c4_target_resolution testConverter).2.1 "quid" h4⟩,
    ⟨h5, h6, (c4_target_resolution testConverter).2.2.1 "1 usd" "zzz" 0 (.ok testRates) _ h5 h6⟩,
    (c4_target_resolution testConverter).2.2.2 "1 zzz" "Invalid unit provided."⟩
